import Mathlib

/-!
Verification development for two subsystems of the QFS metadata/chunk servers:

* `MetaDataStore` (`MetaDataStore.cc`): a read cache over registered checkpoint
  and log-segment files, with per-entry use counts, LRU lists, a retention
  pruner and a worker pool.
* `MetaServerSM` (`chunk/MetaServerSM.cc`): the chunk server's connection state
  machine to the meta server.

The C++ is embedded shallowly: every structure and function below mirrors the
corresponding C++ declaration (names keep the source's `m`-prefixed fields).
External collaborators that are not part of the examined sources (POSIX `read`,
`QCUtils::SysError`, `KfsToSysErrno`, request submission) are modelled and
marked as such in their doc comments.
-/

/-! ## Errno constants (from `<errno.h>`, Linux values) -/

def ENOENT : Int := 2
def EIO' : Int := 5
def EAGAIN : Int := 11
def EFAULT : Int := 14
def EINVAL : Int := 22
def ECANCELED : Int := 125
def EHOSTUNREACH : Int := 113

/-! ## MetaDataStore: entries and tables -/

/-- `MetaDataStore::Impl::Entry` (one variant per role: checkpoint, log
segment).  `mFd = -1` means no open descriptor. -/
structure Entry where
  mLogSeq : Int
  mLogEndSeq : Int
  mFileName : String
  mThreadIdx : Int
  mFd : Int := -1
  mUseCount : Int := 0
  mAccessTime : Int := 0
  mPendingDeleteFlag : Bool := false
deriving DecidableEq, Repr

/-- Constructor `Entry(inLogSeq, inLogEndSeq, inFileNamePtr, inThreadIdx)`. -/
def Entry.make (logSeq logEndSeq : Int) (fileName : String) (threadIdx : Int) : Entry :=
  { mLogSeq := logSeq, mLogEndSeq := logEndSeq, mFileName := fileName,
    mThreadIdx := threadIdx }

/-- `Entry::IsInUse`, verbatim from the source:
`return (0 < mFd || mUseCount <= 0);` -/
def Entry.IsInUse (e : Entry) : Bool :=
  0 < e.mFd || e.mUseCount ≤ 0

/-- `Entry::Expire`: an entry with no references that is idle past the
expiration time (or has no open descriptor) leaves the LRU. -/
def Entry.ExpireTest (e : Entry) (expireTime : Int) : Bool :=
  e.mUseCount ≤ 0 && (e.mAccessTime < expireTime || e.mFd < 0)

/-- A table (`std::map<seq_t, Entry>`) is embedded as an association list with
strictly increasing keys.  The map's own invariant: keys strictly sorted. -/
def tableSorted (l : List (Int × Entry)) : Prop :=
  l.Pairwise (fun a b => a.1 < b.1)

/-- Registration always inserts an entry under its own `mLogSeq`, and the code
asserts `theIt->first == theIt->second.mLogSeq`. -/
def tableCoherent (l : List (Int × Entry)) : Prop :=
  ∀ p ∈ l, p.1 = p.2.mLogSeq

/-- `std::map::find`: exact key lookup. -/
def mapFind (l : List (Int × Entry)) (k : Int) : Option (Int × Entry) :=
  l.find? (fun p => p.1 = k)

/-- `std::map::lower_bound` on the sorted association list: index of the first
element whose key is `≥ k` (the list's length when there is none, i.e.
`end()`). -/
def lowerBound (k : Int) : List (Int × Entry) → Nat
  | [] => 0
  | p :: rest => if k ≤ p.1 then 0 else lowerBound k rest + 1

/-- `std::map::insert`: keeps keys sorted, `none` models insertion failure on a
duplicate key. -/
def mapInsert : List (Int × Entry) → Int → Entry → Option (List (Int × Entry))
  | [], k, e => some [(k, e)]
  | (k', e') :: rest, k, e =>
    if k < k' then some ((k, e) :: (k', e') :: rest)
    else if k = k' then none
    else (mapInsert rest k e).map (fun l => (k', e') :: l)

/-- In-place mutation through a `std::map` iterator: replace the entry stored
under key `k`. -/
def replaceKey (l : List (Int × Entry)) (k : Int) (e : Entry) : List (Int × Entry) :=
  l.map (fun p => if p.1 = k then (k, e) else p)

/-- `Entry::UpdateLru`.  The LRU list is embedded as the list of keys in LRU
order, front = next eviction candidate (`List::GetNext` of the head sentinel).
`List::Insert(*this, inLru)` moves the entry to the front,
`List::Insert(*this, List::GetPrev(inLru))` to the back, `List::Remove`
detaches it; every insert first detaches.  Returns the updated entry (its
`mAccessTime` is set to `now`) and the updated list. -/
def updateLru (e : Entry) (lru : List Int) (now : Int) : Entry × List Int :=
  let base := lru.filter (fun k => k ≠ e.mLogSeq)
  let lru' :=
    if e.mUseCount ≤ 0 ∧ e.mFd < 0 then
      if e.mPendingDeleteFlag then e.mLogSeq :: base else base
    else base ++ [e.mLogSeq]
  ({ e with mAccessTime := now }, lru')

/-! ## MetaDataStore: requests and state -/

/-- Modelled from the spec: `MetaReadMetaData` is declared in `MetaRequest.h`,
which is not among the examined sources.  §6 of the spec lists the fields the
store consumes (`checkpointFlag`, `startLogSeq`, `readPos`, `readSize`) and
produces (`status`, `statusMsg`, the `data` buffer, possibly rewritten
`startLogSeq`).  The buffer holds bytes, embedded as `List Int`. -/
structure ReadOp where
  checkpointFlag : Bool
  startLogSeq : Int
  readPos : Int := 0
  readSize : Int := 0
  status : Int := 0
  statusMsg : String := ""
  data : List Int := []
deriving DecidableEq, Repr

/-- `MetaDataStore::Impl` state under its mutex.  `mWorkersPtr` is modelled by
`mWorkersStarted` (null vs non-null worker array). -/
structure StoreState where
  mWorkersStarted : Bool
  mWorkersCount : Int
  mStopFlag : Bool := false
  mCheckpoints : List (Int × Entry) := []
  mLogSegments : List (Int × Entry) := []
  mCheckpointsLru : List Int := []
  mLogSegmentsLru : List Int := []
  mMinLogSeq : Int := -1
  mPruneLogsFlag : Bool := false
  mPendingDeleteCount : Int := 0
  mMaxReadSize : Int := 2097152
  mMaxInactiveTime : Int := 60
  mMaxCheckpointsToKeepCount : Int := 16
  mCurThreadIdx : Int := 0
  mPendingCount : Int := 0
  mDoneCount : Int := 0
  mDoneQueue : List ReadOp := []
  mNow : Int := 0
deriving DecidableEq, Repr

/-- `Impl::Impl(NetManager&)`: the constructor's initializer list. -/
def implInit (netNow : Int) : StoreState :=
  { mWorkersStarted := false, mWorkersCount := 0, mNow := netNow }

/-- Common tail of both `Handle` success paths: `mUseCount++`, `UpdateLru`,
route the op to the entry's sticky worker (`mThreadIdx`), `mPendingCount++`.
Returns the updated table and LRU, and the `(threadIdx, key)` the op was
queued under. -/
def acquireRoute (table : List (Int × Entry)) (lru : List Int) (now : Int)
    (k : Int) (e : Entry) : List (Int × Entry) × List Int × Int × Int :=
  let e1 := { e with mUseCount := e.mUseCount + 1 }
  let (e2, lru') := updateLru e1 lru now
  (replaceKey table k e2, lru', e.mThreadIdx, k)

/-- Result of `MetaDataStore::Impl::Handle`: the (possibly error-completed) op,
the updated store state, and — when the op was routed to a worker instead of
completing synchronously — the worker index and table key it was queued for. -/
structure HandleResult where
  op : ReadOp
  state : StoreState
  routed : Option (Int × Int)
deriving DecidableEq, Repr

/-- `MetaDataStore::Impl::Handle`, translated branch by branch from the
source.  `getLast?` plays `rbegin()` (the table is sorted ascending), and the
`lowerBound`-then-predecessor block mirrors the `readPos <= 0` log-segment
lookup.  The `j`-out-of-range fallbacks are unreachable (`j < length` always
holds) and are given the same result as the `begin()` case. -/
def handle (s : StoreState) (op : ReadOp) : HandleResult :=
  if ¬ s.mWorkersStarted then
    ⟨{ op with status := -ENOENT, statusMsg := "shutdown" }, s, none⟩
  else if op.checkpointFlag then
    match s.mCheckpoints.getLast? with
    | none =>
      ⟨{ op with status := -ENOENT, statusMsg := "no checkpoint exists" }, s, none⟩
    | some (klast, elast) =>
      if op.startLogSeq < 0 then
        let op' := { op with startLogSeq := elast.mLogSeq, readPos := 0 }
        let (cps, lru, ti, k) :=
          acquireRoute s.mCheckpoints s.mCheckpointsLru s.mNow klast elast
        ⟨op', { s with mCheckpoints := cps, mCheckpointsLru := lru,
                       mPendingCount := s.mPendingCount + 1 }, some (ti, k)⟩
      else
        match mapFind s.mCheckpoints op.startLogSeq with
        | none =>
          ⟨{ op with status := -ENOENT, statusMsg := "no such checkpoint" }, s, none⟩
        | some (k, e) =>
          let (cps, lru, ti, k') :=
            acquireRoute s.mCheckpoints s.mCheckpointsLru s.mNow k e
          ⟨op, { s with mCheckpoints := cps, mCheckpointsLru := lru,
                        mPendingCount := s.mPendingCount + 1 }, some (ti, k')⟩
  else if op.startLogSeq < 0 then
    ⟨{ op with status := -EINVAL, statusMsg := "invalid log sequence" }, s, none⟩
  else if 0 < op.readPos then
    match mapFind s.mLogSegments op.startLogSeq with
    | none =>
      ⟨{ op with status := -EINVAL, statusMsg := "no such log sequence" }, s, none⟩
    | some (k, e) =>
      let (segs, lru, ti, k') :=
        acquireRoute s.mLogSegments s.mLogSegmentsLru s.mNow k e
      ⟨op, { s with mLogSegments := segs, mLogSegmentsLru := lru,
                    mPendingCount := s.mPendingCount + 1 }, some (ti, k')⟩
  else
    let segs := s.mLogSegments
    let i := lowerBound op.startLogSeq segs
    let cand : Option Nat :=
      match segs[i]? with
      | some p =>
        if op.startLogSeq < p.2.mLogSeq then
          (if i = 0 then none else some (i - 1))
        else some i
      | none => if i = 0 then none else some (i - 1)
    match cand with
    | none =>
      ⟨{ op with status := -ENOENT, statusMsg := "no such log segment" }, s, none⟩
    | some j =>
      match segs[j]? with
      | none =>  -- unreachable: j < segs.length on every path that reaches here
        ⟨{ op with status := -ENOENT, statusMsg := "no such log segment" }, s, none⟩
      | some (k, e) =>
        if e.mLogEndSeq < op.startLogSeq then
          ⟨{ op with status := -EFAULT, statusMsg := "missing log segment" }, s, none⟩
        else
          let op' := { op with startLogSeq := e.mLogSeq }
          let (segs', lru, ti, k') :=
            acquireRoute segs s.mLogSegmentsLru s.mNow k e
          ⟨op', { s with mLogSegments := segs', mLogSegmentsLru := lru,
                         mPendingCount := s.mPendingCount + 1 }, some (ti, k')⟩

/-! ## Lookup lemmas for the sorted tables -/

theorem lowerBound_le_length (k : Int) (l : List (Int × Entry)) :
    lowerBound k l ≤ l.length := by
  induction l with
  | nil => simp [lowerBound]
  | cons p rest ih =>
    simp only [lowerBound, List.length_cons]
    split <;> omega

theorem lowerBound_append (k : Int) (l1 l2 : List (Int × Entry))
    (h : ∀ p ∈ l1, p.1 < k) :
    lowerBound k (l1 ++ l2) = l1.length + lowerBound k l2 := by
  induction l1 with
  | nil => simp
  | cons p rest ih =>
    have hp : ¬ k ≤ p.1 := by
      have := h p (by simp)
      omega
    simp only [List.cons_append, lowerBound, if_neg hp, List.length_cons]
    rw [show rest.append l2 = rest ++ l2 from rfl,
      ih (fun q hq => h q (by simp [hq]))]
    omega

theorem lowerBound_cons_le (k : Int) (p : Int × Entry) (l : List (Int × Entry))
    (h : k ≤ p.1) : lowerBound k (p :: l) = 0 := by
  simp [lowerBound, h]

theorem lowerBound_all_gt (k : Int) (l : List (Int × Entry))
    (h : ∀ p ∈ l, k < p.1) : lowerBound k l = 0 := by
  cases l with
  | nil => rfl
  | cons p rest =>
    have := h p (by simp)
    simp [lowerBound]
    omega

/-- In a sorted split `l1 ++ (k, e) :: l2` every key in `l1` is below `k`. -/
theorem sorted_split_left {l1 l2 : List (Int × Entry)} {k : Int} {e : Entry}
    (h : tableSorted (l1 ++ (k, e) :: l2)) : ∀ p ∈ l1, p.1 < k := by
  intro p hp
  have h' := (List.pairwise_append.mp h).2.2
  exact h' p hp (k, e) (by simp)

/-- C10: if `Handle` runs while the worker pool does not exist (before `Start`
or after `Shutdown`), the op completes synchronously with `-ENOENT`,
"shutdown", no routing to a worker, and the store state is untouched. -/
theorem c10_handle_before_start (s : StoreState) (op : ReadOp)
    (h : s.mWorkersStarted = false) :
    handle s op =
      ⟨{ op with status := -ENOENT, statusMsg := "shutdown" }, s, none⟩ := by
  simp [handle, h]

theorem c10_handle_before_start_witness :
    (implInit 7).mWorkersStarted = false ∧
    handle (implInit 7) { checkpointFlag := true, startLogSeq := -1 } =
      ⟨{ checkpointFlag := true, startLogSeq := -1,
         status := -ENOENT, statusMsg := "shutdown" }, implInit 7, none⟩ :=
  ⟨rfl, c10_handle_before_start (implInit 7) _ rfl⟩

theorem mapFind_replaceKey_split (l1 l2 : List (Int × Entry)) (k : Int) (e e2 : Entry)
    (hl1 : ∀ p ∈ l1, p.1 ≠ k) :
    mapFind (replaceKey (l1 ++ (k, e) :: l2) k e2) k = some (k, e2) := by
  induction l1 with
  | nil => simp [mapFind, replaceKey]
  | cons p rest ih =>
    have hp : p.1 ≠ k := hl1 p (by simp)
    simp only [replaceKey, List.cons_append, List.map_cons, if_neg hp]
    rw [mapFind, List.find?_cons_of_neg _ (by simpa using hp)]
    exact ih (fun q hq => hl1 q (by simp [hq]))

/-- C3: a `Handle` call with `checkpointFlag = false`, `readPos = 0` and a
requested sequence `S = op.startLogSeq` that falls inside a registered log
segment `[e.mLogSeq, e.mLogEndSeq]` (tables sorted and coherent, successor
segments start past `S` as contiguity demands) resolves that segment via the
`lower_bound`-then-predecessor lookup: it rewrites `startLogSeq` to the
segment's start, increments that entry's `mUseCount`, routes the op to the
segment's sticky worker `e.mThreadIdx`, and sets no error status. -/
theorem c3_handle_log_segment_lookup
    (s : StoreState) (op : ReadOp) (l1 l2 : List (Int × Entry)) (k : Int) (e : Entry)
    (hw : s.mWorkersStarted = true)
    (hcp : op.checkpointFlag = false)
    (hrp : op.readPos = 0)
    (hsegs : s.mLogSegments = l1 ++ (k, e) :: l2)
    (hsort : tableSorted s.mLogSegments)
    (hcoh : tableCoherent s.mLogSegments)
    (h0 : 0 ≤ op.startLogSeq)
    (hlo : e.mLogSeq ≤ op.startLogSeq)
    (hhi : op.startLogSeq ≤ e.mLogEndSeq)
    (hl2 : ∀ p ∈ l2, op.startLogSeq < p.1) :
    handle s op =
      ⟨{ op with startLogSeq := e.mLogSeq },
       { s with
           mLogSegments :=
             (acquireRoute s.mLogSegments s.mLogSegmentsLru s.mNow k e).1,
           mLogSegmentsLru :=
             (acquireRoute s.mLogSegments s.mLogSegmentsLru s.mNow k e).2.1,
           mPendingCount := s.mPendingCount + 1 },
       some (e.mThreadIdx, k)⟩ ∧
    (handle s op).op.status = op.status ∧
    (handle s op).op.statusMsg = op.statusMsg ∧
    mapFind (handle s op).state.mLogSegments k =
      some (k, { e with mUseCount := e.mUseCount + 1, mAccessTime := s.mNow }) := by
  have hk : k = e.mLogSeq := hcoh (k, e) (by rw [hsegs]; simp)
  have hl1 : ∀ p ∈ l1, p.1 < k := sorted_split_left (hsegs ▸ hsort)
  have hS : ¬ op.startLogSeq < 0 := by omega
  have hR : ¬ 0 < op.readPos := by omega
  have hkS : k ≤ op.startLogSeq := by rw [hk]; exact hlo
  have hl1S : ∀ p ∈ l1, p.1 < op.startLogSeq := fun p hp => by
    have := hl1 p hp; omega
  have hi0 : lowerBound op.startLogSeq (l1 ++ (k, e) :: l2)
      = l1.length + lowerBound op.startLogSeq ((k, e) :: l2) :=
    lowerBound_append _ _ _ hl1S
  have hgetk : ∀ m : Nat, m = l1.length →
      (l1 ++ (k, e) :: l2)[m]? = some (k, e) := by
    intro m hm
    subst hm
    rw [List.getElem?_append_right (le_refl _)]
    simp
  have hmain : handle s op =
      ⟨{ op with startLogSeq := e.mLogSeq },
       { s with
           mLogSegments :=
             (acquireRoute s.mLogSegments s.mLogSegmentsLru s.mNow k e).1,
           mLogSegmentsLru :=
             (acquireRoute s.mLogSegments s.mLogSegmentsLru s.mNow k e).2.1,
           mPendingCount := s.mPendingCount + 1 },
       some (e.mThreadIdx, k)⟩ := by
    rcases eq_or_lt_of_le hkS with heq | hlt
    · -- exact hit: the lower bound lands on the segment itself
      have hi : lowerBound op.startLogSeq (l1 ++ (k, e) :: l2) = l1.length := by
        rw [hi0, lowerBound_cons_le _ _ _ (by omega)]
        omega
      have hnotlt : ¬ op.startLogSeq < e.mLogSeq := by omega
      have hnotend : ¬ e.mLogEndSeq < op.startLogSeq := by omega
      simp [handle, hw, hcp, hS, hR, hsegs, hi, hgetk _ rfl, hnotlt, hnotend,
        acquireRoute, updateLru]
    · -- the lower bound lands past the segment; the predecessor step finds it
      have hl2' : lowerBound op.startLogSeq l2 = 0 := lowerBound_all_gt _ _ hl2
      have hcons : lowerBound op.startLogSeq ((k, e) :: l2) = 1 := by
        simp [lowerBound, hl2']
        omega
      have hi : lowerBound op.startLogSeq (l1 ++ (k, e) :: l2) = l1.length + 1 := by
        rw [hi0, hcons]
      have hnotend : ¬ e.mLogEndSeq < op.startLogSeq := by omega
      have hget1 : (l1 ++ (k, e) :: l2)[l1.length + 1]? = l2[0]? := by
        rw [List.getElem?_append_right
          (show l1.length ≤ l1.length + 1 by omega)]
        simp
      cases hl2eq : l2 with
      | nil =>
        subst hl2eq
        simp only [List.getElem?_nil] at hget1
        simp [handle, hw, hcp, hS, hR, hsegs, hi, hget1, Nat.add_sub_cancel,
          hgetk _ rfl, hnotend, acquireRoute, updateLru]
      | cons q l2' =>
        subst hl2eq
        have hq : op.startLogSeq < q.2.mLogSeq := by
          have h1 : op.startLogSeq < q.1 := hl2 q (by simp)
          have h2 : q.1 = q.2.mLogSeq :=
            hcoh q (by rw [hsegs]; simp)
          omega
        simp only [List.getElem?_cons_zero] at hget1
        simp [handle, hw, hcp, hS, hR, hsegs, hi, hget1, hq, Nat.add_sub_cancel,
          hgetk _ rfl, hnotend, acquireRoute, updateLru]
  refine ⟨hmain, ?_, ?_, ?_⟩
  · rw [hmain]
  · rw [hmain]
  · rw [hmain]
    have hrep : (acquireRoute s.mLogSegments s.mLogSegmentsLru s.mNow k e).1 =
        replaceKey s.mLogSegments k
          { e with mUseCount := e.mUseCount + 1, mAccessTime := s.mNow } := by
      simp [acquireRoute, updateLru]
    simp only [hrep, hsegs]
    exact mapFind_replaceKey_split _ _ _ _ _ (fun p hp => by
      have := hl1 p hp; omega)

def c3ea : Entry := Entry.make 0 4 "log.0" 0

def c3eb : Entry := Entry.make 5 9 "log.5" 1

def c3s0 : StoreState :=
  { mWorkersStarted := true, mWorkersCount := 2,
    mLogSegments := [(0, c3ea), (5, c3eb)], mNow := 100 }

def c3op : ReadOp := { checkpointFlag := false, startLogSeq := 7, readSize := 128 }

theorem c3_handle_log_segment_lookup_witness :
    (handle c3s0 c3op).op.startLogSeq = 5 ∧
    (handle c3s0 c3op).op.status = 0 ∧
    (handle c3s0 c3op).routed = some (1, 5) ∧
    mapFind (handle c3s0 c3op).state.mLogSegments 5 =
      some (5, { c3eb with mUseCount := 1, mAccessTime := 100 }) := by
  have h := c3_handle_log_segment_lookup c3s0 c3op [(0, c3ea)] [] 5 c3eb
    rfl rfl rfl rfl (by unfold tableSorted; decide) (by unfold tableCoherent; decide)
    (by decide) (by decide) (by decide) (by simp)
  refine ⟨?_, ?_, ?_, ?_⟩
  · rw [h.1]; rfl
  · rw [h.2.1]; rfl
  · rw [h.1]; rfl
  · exact h.2.2.2.trans (by decide)

/-- C4: `Handle` calls with invalid inputs complete synchronously, are not
routed to a worker, and leave every entry's `mUseCount` (indeed the whole
store state) unchanged: (1) `checkpointFlag` with an empty checkpoint table →
`-ENOENT` "no checkpoint exists"; (2) `checkpointFlag` with a specified
`startLogSeq ≥ 0` matching no checkpoint → `-ENOENT` "no such checkpoint";
(3) no `checkpointFlag` and `startLogSeq < 0` → `-EINVAL`; (4) under the
positional (`readPos ≤ 0`) lookup, a requested sequence before the oldest
segment → `-ENOENT`; (5) a requested sequence falling past its predecessor
segment's `mLogEndSeq` (a gap) → `-EFAULT`. -/
theorem c4_handle_error_paths (s : StoreState) (op : ReadOp)
    (hw : s.mWorkersStarted = true) :
    (op.checkpointFlag = true → s.mCheckpoints = [] →
      handle s op =
        ⟨{ op with status := -ENOENT, statusMsg := "no checkpoint exists" }, s, none⟩) ∧
    (op.checkpointFlag = true → 0 ≤ op.startLogSeq → s.mCheckpoints ≠ [] →
      mapFind s.mCheckpoints op.startLogSeq = none →
      handle s op =
        ⟨{ op with status := -ENOENT, statusMsg := "no such checkpoint" }, s, none⟩) ∧
    (op.checkpointFlag = false → op.startLogSeq < 0 →
      handle s op =
        ⟨{ op with status := -EINVAL, statusMsg := "invalid log sequence" }, s, none⟩) ∧
    (op.checkpointFlag = false → 0 ≤ op.startLogSeq → op.readPos ≤ 0 →
      tableCoherent s.mLogSegments →
      (∀ p ∈ s.mLogSegments, op.startLogSeq < p.1) →
      handle s op =
        ⟨{ op with status := -ENOENT, statusMsg := "no such log segment" }, s, none⟩) ∧
    (∀ l1 l2 : List (Int × Entry), ∀ k : Int, ∀ e : Entry,
      op.checkpointFlag = false → 0 ≤ op.startLogSeq → op.readPos ≤ 0 →
      s.mLogSegments = l1 ++ (k, e) :: l2 →
      tableSorted s.mLogSegments → tableCoherent s.mLogSegments →
      e.mLogSeq ≤ op.startLogSeq → e.mLogEndSeq < op.startLogSeq →
      (∀ p ∈ l2, op.startLogSeq < p.1) →
      handle s op =
        ⟨{ op with status := -EFAULT, statusMsg := "missing log segment" }, s, none⟩) := by
  refine ⟨?_, ?_, ?_, ?_, ?_⟩
  · intro hcp hempty
    simp [handle, hw, hcp, hempty]
  · intro hcp h0 hne hfind
    have hS : ¬ op.startLogSeq < 0 := by omega
    cases hg : s.mCheckpoints.getLast? with
    | none => exact absurd (List.getLast?_eq_none_iff.mp hg) hne
    | some p =>
      simp [handle, hw, hcp, hS, hg, hfind]
  · intro hcp hS
    simp [handle, hw, hcp, hS]
  · intro hcp h0 hrp hcoh hall
    have hS : ¬ op.startLogSeq < 0 := by omega
    have hR : ¬ 0 < op.readPos := by omega
    have hi : lowerBound op.startLogSeq s.mLogSegments = 0 :=
      lowerBound_all_gt _ _ hall
    cases hsegs : s.mLogSegments with
    | nil => simp [handle, hw, hcp, hS, hR, hsegs, lowerBound]
    | cons p rest =>
      have hq : op.startLogSeq < p.2.mLogSeq := by
        have h1 : op.startLogSeq < p.1 := hall p (by simp [hsegs])
        have h2 : p.1 = p.2.mLogSeq := hcoh p (by simp [hsegs])
        omega
      rw [hsegs] at hi
      simp [handle, hw, hcp, hS, hR, hsegs, hi, hq]
  · intro l1 l2 k e hcp h0 hrp hsegs hsort hcoh hlo hgap hl2
    have hk : k = e.mLogSeq := hcoh (k, e) (by rw [hsegs]; simp)
    have hl1 : ∀ p ∈ l1, p.1 < k := sorted_split_left (hsegs ▸ hsort)
    have hS : ¬ op.startLogSeq < 0 := by omega
    have hR : ¬ 0 < op.readPos := by omega
    have hkS : k ≤ op.startLogSeq := by omega
    have hl1S : ∀ p ∈ l1, p.1 < op.startLogSeq := fun p hp => by
      have := hl1 p hp; omega
    have hi0 : lowerBound op.startLogSeq (l1 ++ (k, e) :: l2)
        = l1.length + lowerBound op.startLogSeq ((k, e) :: l2) :=
      lowerBound_append _ _ _ hl1S
    have hgetk : ∀ m : Nat, m = l1.length →
        (l1 ++ (k, e) :: l2)[m]? = some (k, e) := by
      intro m hm
      subst hm
      rw [List.getElem?_append_right (le_refl _)]
      simp
    rcases eq_or_lt_of_le hkS with heq | hlt
    · have hi : lowerBound op.startLogSeq (l1 ++ (k, e) :: l2) = l1.length := by
        rw [hi0, lowerBound_cons_le _ _ _ (by omega)]
        omega
      have hnotlt : ¬ op.startLogSeq < e.mLogSeq := by omega
      simp [handle, hw, hcp, hS, hR, hsegs, hi, hgetk _ rfl, hnotlt, hgap]
    · have hl2' : lowerBound op.startLogSeq l2 = 0 := lowerBound_all_gt _ _ hl2
      have hcons : lowerBound op.startLogSeq ((k, e) :: l2) = 1 := by
        simp [lowerBound, hl2']
        omega
      have hi : lowerBound op.startLogSeq (l1 ++ (k, e) :: l2) = l1.length + 1 := by
        rw [hi0, hcons]
      have hget1 : (l1 ++ (k, e) :: l2)[l1.length + 1]? = l2[0]? := by
        rw [List.getElem?_append_right
          (show l1.length ≤ l1.length + 1 by omega)]
        simp
      cases hl2eq : l2 with
      | nil =>
        subst hl2eq
        simp only [List.getElem?_nil] at hget1
        simp [handle, hw, hcp, hS, hR, hsegs, hi, hget1, Nat.add_sub_cancel,
          hgetk _ rfl, hgap]
      | cons q l2' =>
        subst hl2eq
        have hq : op.startLogSeq < q.2.mLogSeq := by
          have h1 : op.startLogSeq < q.1 := hl2 q (by simp)
          have h2 : q.1 = q.2.mLogSeq := hcoh q (by rw [hsegs]; simp)
          omega
        simp only [List.getElem?_cons_zero] at hget1
        simp [handle, hw, hcp, hS, hR, hsegs, hi, hget1, hq, Nat.add_sub_cancel,
          hgetk _ rfl, hgap]

def c4e34 : Entry := Entry.make 3 4 "log.3" 0

def c4e1014 : Entry := Entry.make 10 14 "log.10" 1

def c4ecp : Entry := Entry.make 3 3 "chkpt.3" 0

def c4sA : StoreState :=
  { mWorkersStarted := true, mWorkersCount := 2,
    mLogSegments := [(3, c4e34), (10, c4e1014)] }

def c4sB : StoreState :=
  { mWorkersStarted := true, mWorkersCount := 2, mCheckpoints := [(3, c4ecp)] }

def c4op1 : ReadOp := { checkpointFlag := true, startLogSeq := -1 }

def c4op2 : ReadOp := { checkpointFlag := true, startLogSeq := 4 }

def c4op3 : ReadOp := { checkpointFlag := false, startLogSeq := -2 }

def c4op4 : ReadOp := { checkpointFlag := false, startLogSeq := 1 }

def c4op5 : ReadOp := { checkpointFlag := false, startLogSeq := 6 }

theorem c4_handle_error_paths_witness :
    handle c4sA c4op1 =
      ⟨{ c4op1 with status := -ENOENT, statusMsg := "no checkpoint exists" },
       c4sA, none⟩ ∧
    handle c4sB c4op2 =
      ⟨{ c4op2 with status := -ENOENT, statusMsg := "no such checkpoint" },
       c4sB, none⟩ ∧
    handle c4sA c4op3 =
      ⟨{ c4op3 with status := -EINVAL, statusMsg := "invalid log sequence" },
       c4sA, none⟩ ∧
    handle c4sA c4op4 =
      ⟨{ c4op4 with status := -ENOENT, statusMsg := "no such log segment" },
       c4sA, none⟩ ∧
    handle c4sA c4op5 =
      ⟨{ c4op5 with status := -EFAULT, statusMsg := "missing log segment" },
       c4sA, none⟩ :=
  ⟨(c4_handle_error_paths c4sA c4op1 rfl).1 rfl rfl,
   (c4_handle_error_paths c4sB c4op2 rfl).2.1 rfl (by decide) (by decide)
     (by decide),
   (c4_handle_error_paths c4sA c4op3 rfl).2.2.1 rfl (by decide),
   (c4_handle_error_paths c4sA c4op4 rfl).2.2.2.1 rfl (by decide) (by decide)
     (by unfold tableCoherent; decide) (by decide),
   (c4_handle_error_paths c4sA c4op5 rfl).2.2.2.2 [] [(10, c4e1014)] 3 c4e34
     rfl (by decide) (by decide) rfl (by unfold tableSorted; decide)
     (by unfold tableCoherent; decide) (by decide) (by decide) (by decide)⟩

/-! ## MetaDataStore: registration, worker maintenance pass, timeout -/

/-- `Impl::RegisterCheckpoint`.  `none` models the fatal log-and-panic path
(null/empty name, negative sequence, duplicate key). -/
def registerCheckpoint (s : StoreState) (fileName : String) (logSeq : Int) :
    Option StoreState :=
  if fileName = "" ∨ logSeq < 0 then none
  else
    match mapInsert s.mCheckpoints logSeq
        (Entry.make logSeq logSeq fileName s.mCurThreadIdx) with
    | none => none
    | some cps =>
      let cur := s.mCurThreadIdx + 1
      let cur := if s.mWorkersCount ≤ cur then 0 else cur
      some { s with mCheckpoints := cps, mCurThreadIdx := cur }

/-- `Impl::RegisterLogSegment`.  `none` models the fatal log-and-panic path
(null/empty name, negative start, `endSeq < startSeq`, duplicate key). -/
def registerLogSegment (s : StoreState) (fileName : String)
    (startSeq endSeq : Int) : Option StoreState :=
  if fileName = "" ∨ startSeq < 0 ∨ endSeq < startSeq then none
  else
    match mapInsert s.mLogSegments startSeq
        (Entry.make startSeq endSeq fileName s.mCurThreadIdx) with
    | none => none
    | some segs =>
      let pruneLogs := if endSeq < s.mMinLogSeq then true else s.mPruneLogsFlag
      let cur := s.mCurThreadIdx + 1
      let cur := if s.mWorkersCount ≤ cur then 0 else cur
      some { s with mLogSegments := segs, mPruneLogsFlag := pruneLogs,
                    mCurThreadIdx := cur }

/-- `Impl::Start`: refuses when already started or no workers configured. -/
def storeStart (s : StoreState) : Int × StoreState :=
  if s.mWorkersStarted ∨ s.mWorkersCount ≤ 0 then (-EINVAL, s)
  else (0, { s with mStopFlag := false, mWorkersStarted := true })

/-- `Impl::Shutdown`: joins and destroys the worker pool. -/
def storeShutdown (s : StoreState) : StoreState :=
  if s.mStopFlag ∨ ¬ s.mWorkersStarted then s
  else { s with mStopFlag := true, mWorkersCount := 0, mWorkersStarted := false }

/-- `std::map::erase` by key. -/
def mapErase (l : List (Int × Entry)) (k : Int) : List (Int × Entry) :=
  l.filter (fun p => p.1 ≠ k)

/-- Result of one `Expire` walk over an LRU list. -/
structure ExpireResult where
  lru : List Int
  table : List (Int × Entry)
  closeList : List Int
  deleteList : List String
deriving DecidableEq, Repr

/-- The static `Impl::Expire` template: walk the LRU from the front while the
front entry passes `Entry::Expire` (no references, and idle past the
expiration time or descriptor already closed); expired entries leave the LRU,
their descriptors are collected for deferred close, and those already marked
`mPendingDeleteFlag` are erased from the table with their file collected for
deferred unlink.  The `mapFind` miss is unreachable (LRU keys are table
keys). -/
def expireLoop (expireTime : Int) :
    List Int → List (Int × Entry) → List Int → List String → ExpireResult
  | [], table, cl, dl => ⟨[], table, cl, dl⟩
  | kk :: rest, table, cl, dl =>
    match mapFind table kk with
    | none => ⟨kk :: rest, table, cl, dl⟩
    | some (k, e) =>
      if e.ExpireTest expireTime then
        let cl' := if 0 ≤ e.mFd then cl ++ [e.mFd] else cl
        let e' := if 0 ≤ e.mFd then { e with mFd := -1 } else e
        if e.mPendingDeleteFlag then
          expireLoop expireTime rest (mapErase table k) cl' (dl ++ [e.mFileName])
        else
          expireLoop expireTime rest (replaceKey table k e') cl' dl
      else ⟨kk :: rest, table, cl, dl⟩

/-- The non-template `Impl::Expire`: expire both LRUs and account the erased
pending-delete checkpoints against `mPendingDeleteCount`. -/
def storeExpire (s : StoreState) (cl : List Int) (dl : List String) :
    StoreState × List Int × List String :=
  let expireTime := s.mNow - s.mMaxInactiveTime
  let sz := dl.length
  let r1 := expireLoop expireTime s.mCheckpointsLru s.mCheckpoints cl dl
  let delta : Int := (r1.deleteList.length : Int) - (sz : Int)
  let s1 := { s with mCheckpointsLru := r1.lru, mCheckpoints := r1.table,
                     mPendingDeleteCount := s.mPendingDeleteCount - delta }
  let r2 := expireLoop expireTime s1.mLogSegmentsLru s1.mLogSegments
    r1.closeList r1.deleteList
  ({ s1 with mLogSegmentsLru := r2.lru, mLogSegments := r2.table },
   r2.closeList, r2.deleteList)

/-- Result of the checkpoint-retention walk. -/
structure PruneResult where
  table : List (Int × Entry)
  minLogSeq : Int
  pendingDeleteCount : Int
  closeList : List Int
  deleteList : List String
deriving DecidableEq, Repr

/-- The checkpoint-retention walk of `Impl::Run`: while `0 < thePruneCount`,
raise `mMinLogSeq` to the visited checkpoint's `mLogSeq`, then either mark the
entry `mPendingDeleteFlag` (when `IsInUse()`) or erase it, collecting its
descriptor for close and its file for unlink.  The erased entry's `mFd` is
also zeroed in place; that store dies with the entry and is not modelled. -/
def retentionLoop (pruneCount minLogSeq pendingDeleteCount : Int) :
    List (Int × Entry) → List Int → List String → PruneResult
  | cps, cl, dl =>
    if pruneCount ≤ 0 then ⟨cps, minLogSeq, pendingDeleteCount, cl, dl⟩
    else
      match cps with
      | [] => ⟨[], minLogSeq, pendingDeleteCount, cl, dl⟩
      | (k, e) :: rest =>
        let m' := if minLogSeq < e.mLogSeq then e.mLogSeq else minLogSeq
        if e.IsInUse then
          if ¬ e.mPendingDeleteFlag then
            let r := retentionLoop (pruneCount - 1) m' (pendingDeleteCount + 1)
              rest cl dl
            { r with table := (k, { e with mPendingDeleteFlag := true }) :: r.table }
          else
            let r := retentionLoop (pruneCount - 1) m' pendingDeleteCount
              rest cl dl
            { r with table := (k, e) :: r.table }
        else
          let cl' := if 0 ≤ e.mFd then cl ++ [e.mFd] else cl
          retentionLoop (pruneCount - 1) m' pendingDeleteCount rest cl'
            (dl ++ [e.mFileName])

/-- Result of the log-segment pruning walk. -/
structure LogPruneResult where
  table : List (Int × Entry)
  closeList : List Int
  deleteList : List String
deriving DecidableEq, Repr

/-- The log-segment pruning walk of `Impl::Run`: from the chosen starting
iterator, while the segment's `mLogEndSeq < mMinLogSeq`, mark in-use entries
`mPendingDeleteFlag` or erase the rest (deferred close/unlink). -/
def logPruneLoop (minLogSeq : Int) :
    List (Int × Entry) → List Int → List String → LogPruneResult
  | [], cl, dl => ⟨[], cl, dl⟩
  | (k, e) :: rest, cl, dl =>
    if e.mLogEndSeq < minLogSeq then
      if e.IsInUse then
        let r := logPruneLoop minLogSeq rest cl dl
        { r with table := (k, { e with mPendingDeleteFlag := true }) :: r.table }
      else
        let cl' := if 0 ≤ e.mFd then cl ++ [e.mFd] else cl
        logPruneLoop minLogSeq rest cl' (dl ++ [e.mFileName])
    else ⟨(k, e) :: rest, cl, dl⟩

/-- The per-iteration maintenance section of `Impl::Run` after the queue
drain: `Expire`, the checkpoint-retention walk
(`thePruneCount = size - mMaxCheckpointsToKeepCount - mPendingDeleteCount`),
and — when `mPruneLogsFlag` is set or `mMinLogSeq` was raised — the
log-segment pruning walk starting at `find(thePrevMinLogSeq)` (or `begin()`
when absent).  Returns the new state, the descriptors to close and the files
to unlink, both performed with the mutex released. -/
def runPruneSection (s : StoreState) : StoreState × List Int × List String :=
  let er := storeExpire s [] []
  let s0 := er.1
  let pruneCount : Int :=
    (s0.mCheckpoints.length : Int) - s0.mMaxCheckpointsToKeepCount
      - s0.mPendingDeleteCount
  let prevMinLogSeq := s0.mMinLogSeq
  let r := retentionLoop pruneCount s0.mMinLogSeq s0.mPendingDeleteCount
    s0.mCheckpoints er.2.1 er.2.2
  let s1 : StoreState :=
    { s0 with
        mCheckpoints := r.table
        mMinLogSeq := r.minLogSeq
        mPendingDeleteCount := r.pendingDeleteCount }
  if s1.mPruneLogsFlag ∨ prevMinLogSeq < s1.mMinLogSeq then
    let s2 : StoreState := { s1 with mPruneLogsFlag := false }
    let i : Nat := s2.mLogSegments.findIdx (fun p => p.1 = prevMinLogSeq)
    let startIdx : Nat := if i = s2.mLogSegments.length then 0 else i
    let lr := logPruneLoop s2.mMinLogSeq (s2.mLogSegments.drop startIdx)
      r.closeList r.deleteList
    ({ s2 with mLogSegments := s2.mLogSegments.take startIdx ++ lr.table },
     lr.closeList, lr.deleteList)
  else (s1, r.closeList, r.deleteList)

/-- `Impl::Timeout` (the completion reactor): fast-path out when nothing
completed and the clock did not move; otherwise swap out the done queue,
update `mNow`, reset `mDoneCount`, and hand the completed ops back (each goes
through `submit_request` with the mutex released). -/
def timeoutTick (s : StoreState) (netNow : Int) : StoreState × List ReadOp :=
  if s.mDoneCount ≤ 0 ∧ netNow = s.mNow then (s, [])
  else ({ s with mNow := netNow, mDoneQueue := [], mDoneCount := 0 },
        s.mDoneQueue)

def c1e1 : Entry := { Entry.make 1 1 "chkpt.1" 0 with mUseCount := 1 }

def c1e2 : Entry := Entry.make 2 2 "chkpt.2" 1

def c1s : StoreState :=
  { mWorkersStarted := true, mWorkersCount := 2,
    mCheckpoints := [(1, c1e1), (2, c1e2)],
    mMaxCheckpointsToKeepCount := 1 }

/-- C1: evaluation of the pruning pass at a failing input.  `c1e1` has
`mUseCount = 1 > 0` (a reader holds it) and no open descriptor; the claim (and
the rest of the code: `QCRTASSERT(0 < mUseCount)` and the
"internal error -- no such entry" path in `Read`) requires the pruner to treat
it as in use and only mark `mPendingDeleteFlag`.  But `IsInUse()` is
`(0 < mFd || mUseCount <= 0)`, so the walk reports it *not* in use, erases it
from the table and schedules its file for unlink — while the idle `c1e2`
(`mUseCount = 0`, `mFd = -1`) tests as "in use".  The in-use test is inverted
relative to the claimed `useCount > 0 ∨ open descriptor`. -/
theorem c1_pruner_deletes_in_use_entry :
    (0 < c1e1.mUseCount ∧ c1e1.mFd < 0 ∧ c1e1.IsInUse = false) ∧
    (c1e2.mUseCount = 0 ∧ c1e2.mFd < 0 ∧ c1e2.IsInUse = true) ∧
    (runPruneSection c1s).2.2 = ["chkpt.1"] ∧
    mapFind (runPruneSection c1s).1.mCheckpoints 1 = none ∧
    (runPruneSection c1s).1.mCheckpoints = [(2, c1e2)] := by decide

theorem retentionLoop_minLogSeq_le :
    ∀ (cps : List (Int × Entry)) (pc m pdc : Int) (cl : List Int)
      (dl : List String),
      m ≤ (retentionLoop pc m pdc cps cl dl).minLogSeq := by
  intro cps
  induction cps with
  | nil =>
    intro pc m pdc cl dl
    simp only [retentionLoop]
    split <;> simp
  | cons p rest ih =>
    intro pc m pdc cl dl
    obtain ⟨k, e⟩ := p
    simp only [retentionLoop]
    split
    · simp
    · have hm' : m ≤ if m < e.mLogSeq then e.mLogSeq else m := by
        split <;> omega
      split
      · split
        · exact le_trans hm' (ih _ _ _ _ _)
        · exact le_trans hm' (ih _ _ _ _ _)
      · exact le_trans hm' (ih _ _ _ _ _)

theorem retentionLoop_minLogSeq_cases :
    ∀ (cps : List (Int × Entry)) (pc m pdc : Int) (cl : List Int)
      (dl : List String),
      (retentionLoop pc m pdc cps cl dl).minLogSeq = m ∨
      ∃ p ∈ cps, (retentionLoop pc m pdc cps cl dl).minLogSeq = p.2.mLogSeq ∧
        m < p.2.mLogSeq := by
  intro cps
  induction cps with
  | nil =>
    intro pc m pdc cl dl
    left
    simp only [retentionLoop]
    split <;> rfl
  | cons p rest ih =>
    intro pc m pdc cl dl
    obtain ⟨k, e⟩ := p
    by_cases hpc : pc ≤ 0
    · left
      simp only [retentionLoop, if_pos hpc]
    · have step : ∀ r' : PruneResult,
          (r'.minLogSeq = (if m < e.mLogSeq then e.mLogSeq else m) ∨
            ∃ q ∈ rest, r'.minLogSeq = q.2.mLogSeq ∧
              (if m < e.mLogSeq then e.mLogSeq else m) < q.2.mLogSeq) →
          (r'.minLogSeq = m ∨
            ∃ q ∈ (k, e) :: rest, r'.minLogSeq = q.2.mLogSeq ∧
              m < q.2.mLogSeq) := by
        intro r' h
        rcases h with h | ⟨q, hq, h1, h2⟩
        · by_cases hm : m < e.mLogSeq
          · right
            exact ⟨(k, e), by simp, by rw [h, if_pos hm], hm⟩
          · left
            rw [h, if_neg hm]
        · right
          refine ⟨q, by simp [hq], h1, ?_⟩
          by_cases hm : m < e.mLogSeq
          · rw [if_pos hm] at h2
            omega
          · rw [if_neg hm] at h2
            omega
      simp only [retentionLoop, if_neg hpc]
      split
      · split
        · exact step _ (ih _ _ _ _ _)
        · exact step _ (ih _ _ _ _ _)
      · exact step _ (ih _ _ _ _ _)

theorem replaceKey_logSeq_link (table : List (Int × Entry)) (k : Int)
    (e e' : Entry) (hfind : mapFind table k = some (k, e))
    (hpres : e'.mLogSeq = e.mLogSeq) :
    ∀ q ∈ replaceKey table k e', ∃ w ∈ table, q.2.mLogSeq = w.2.mLogSeq := by
  intro q hq
  rcases List.mem_map.mp hq with ⟨w, hw, hqe⟩
  by_cases hwk : w.1 = k
  · refine ⟨(k, e), List.mem_of_find?_eq_some hfind, ?_⟩
    rw [← hqe]
    simp [hwk, hpres]
  · refine ⟨w, hw, ?_⟩
    rw [← hqe]
    simp [hwk]

theorem expireLoop_table_logSeq (t : Int) :
    ∀ (lru : List Int) (table : List (Int × Entry)) (cl : List Int)
      (dl : List String),
      ∀ p ∈ (expireLoop t lru table cl dl).table,
        ∃ q ∈ table, p.2.mLogSeq = q.2.mLogSeq := by
  intro lru
  induction lru with
  | nil =>
    intro table cl dl p hp
    exact ⟨p, hp, rfl⟩
  | cons kk rest ih =>
    intro table cl dl p hp
    rcases hfind : mapFind table kk with _ | ⟨k, e⟩ <;>
      simp only [expireLoop, hfind] at hp
    · exact ⟨p, hp, rfl⟩
    · have hkk : k = kk := by
        unfold mapFind at hfind
        have h2 := List.find?_some hfind
        simpa using h2
      by_cases hexp : e.ExpireTest t = true
      · rw [if_pos hexp] at hp
        by_cases hpd : e.mPendingDeleteFlag
        · rw [if_pos hpd] at hp
          rcases ih _ _ _ p hp with ⟨q, hq, he⟩
          exact ⟨q, List.mem_of_mem_filter hq, he⟩
        · rw [if_neg hpd] at hp
          rcases ih _ _ _ p hp with ⟨q, hq, he⟩
          rcases replaceKey_logSeq_link table k e
              (if 0 ≤ e.mFd then { e with mFd := -1 } else e) (hkk ▸ hfind)
              (by split <;> rfl) q hq with ⟨w, hw, he2⟩
          exact ⟨w, hw, he.trans he2⟩
      · rw [if_neg hexp] at hp
        exact ⟨p, hp, rfl⟩

theorem runPruneSection_minLogSeq (s : StoreState) :
    (runPruneSection s).1.mMinLogSeq =
      (retentionLoop
        (((storeExpire s [] []).1.mCheckpoints.length : Int) -
          (storeExpire s [] []).1.mMaxCheckpointsToKeepCount -
          (storeExpire s [] []).1.mPendingDeleteCount)
        (storeExpire s [] []).1.mMinLogSeq
        (storeExpire s [] []).1.mPendingDeleteCount
        (storeExpire s [] []).1.mCheckpoints
        (storeExpire s [] []).2.1 (storeExpire s [] []).2.2).minLogSeq := by
  simp only [runPruneSection]
  split <;> rfl

/-- C8: across the store's operations — `Handle`, `RegisterCheckpoint`,
`RegisterLogSegment`, the timeout tick and the worker maintenance pass —
`mMinLogSeq` never decreases; the first four leave it untouched, and the
maintenance pass either leaves it unchanged or raises it to the `mLogSeq` of a
checkpoint of the table (the victim visited by the retention walk). -/
theorem c8_minLogSeq_monotone (s : StoreState) :
    (∀ op : ReadOp, (handle s op).state.mMinLogSeq = s.mMinLogSeq) ∧
    (∀ (n : String) (q : Int) (s' : StoreState),
      registerCheckpoint s n q = some s' → s'.mMinLogSeq = s.mMinLogSeq) ∧
    (∀ (n : String) (a b : Int) (s' : StoreState),
      registerLogSegment s n a b = some s' → s'.mMinLogSeq = s.mMinLogSeq) ∧
    (∀ t : Int, (timeoutTick s t).1.mMinLogSeq = s.mMinLogSeq) ∧
    s.mMinLogSeq ≤ (runPruneSection s).1.mMinLogSeq ∧
    ((runPruneSection s).1.mMinLogSeq = s.mMinLogSeq ∨
      ∃ p ∈ s.mCheckpoints,
        (runPruneSection s).1.mMinLogSeq = p.2.mLogSeq ∧
        s.mMinLogSeq < p.2.mLogSeq) := by
  refine ⟨?_, ?_, ?_, ?_, ?_, ?_⟩
  · intro op
    simp only [handle]
    repeat' split <;> try rfl
  · intro n q s' h
    unfold registerCheckpoint at h
    split at h
    · exact Option.noConfusion h
    · split at h
      · exact Option.noConfusion h
      · injection h with h2
        subst h2
        rfl
  · intro n a b s' h
    unfold registerLogSegment at h
    split at h
    · exact Option.noConfusion h
    · split at h
      · exact Option.noConfusion h
      · injection h with h2
        subst h2
        rfl
  · intro t
    unfold timeoutTick
    split <;> rfl
  · rw [runPruneSection_minLogSeq]
    exact retentionLoop_minLogSeq_le _ _ _ _ _ _
  · rw [runPruneSection_minLogSeq]
    rcases retentionLoop_minLogSeq_cases (storeExpire s [] []).1.mCheckpoints
        (((storeExpire s [] []).1.mCheckpoints.length : Int) -
          (storeExpire s [] []).1.mMaxCheckpointsToKeepCount -
          (storeExpire s [] []).1.mPendingDeleteCount)
        (storeExpire s [] []).1.mMinLogSeq
        (storeExpire s [] []).1.mPendingDeleteCount
        (storeExpire s [] []).2.1 (storeExpire s [] []).2.2 with h | ⟨p, hp, h1, h2⟩
    · left
      exact h
    · right
      rcases expireLoop_table_logSeq (s.mNow - s.mMaxInactiveTime)
          s.mCheckpointsLru s.mCheckpoints [] [] p hp with ⟨q, hq, he⟩
      exact ⟨q, hq, by rw [h1, he], by rw [← he]; exact h2⟩

def c8s : StoreState :=
  { mWorkersStarted := true, mWorkersCount := 1,
    mCheckpoints := [(4, Entry.make 4 4 "chkpt.4" 0), (6, Entry.make 6 6 "chkpt.6" 0)],
    mMaxCheckpointsToKeepCount := 1 }

theorem c8_minLogSeq_monotone_witness :
    (∃ s', registerCheckpoint c8s "chkpt.9" 9 = some s' ∧
      s'.mMinLogSeq = c8s.mMinLogSeq) ∧
    c8s.mMinLogSeq ≤ (runPruneSection c8s).1.mMinLogSeq ∧
    (handle c8s { checkpointFlag := true, startLogSeq := -1 }).state.mMinLogSeq
      = c8s.mMinLogSeq ∧
    (timeoutTick c8s 5).1.mMinLogSeq = c8s.mMinLogSeq ∧
    (∃ s', registerLogSegment c8s "log.0" 0 3 = some s' ∧
      s'.mMinLogSeq = c8s.mMinLogSeq) :=
  by
  refine ⟨⟨_, rfl, ?_⟩, (c8_minLogSeq_monotone c8s).2.2.2.2.1,
    (c8_minLogSeq_monotone c8s).1 _, (c8_minLogSeq_monotone c8s).2.2.2.1 5,
    ⟨_, rfl, ?_⟩⟩
  · exact (c8_minLogSeq_monotone c8s).2.1 "chkpt.9" 9 _ rfl
  · exact (c8_minLogSeq_monotone c8s).2.2.1 "log.0" 0 3 _ rfl

/-! ## MetaDataStore: SetParameters -/

/-- Modelled from the spec: `Properties` (`common/Properties.h`, not among the
examined sources) is a string-keyed table; `getValue(key, default)` returns
the stored value or the default.  Embedded as a partial integer map. -/
def Props := String → Option Int

def getValue (p : Props) (key : String) (dflt : Int) : Int :=
  (p key).getD dflt

/-- `Impl::SetParameters`: clamp `maxReadSize` to ≥ 64 KiB, `maxInactiveTime`
to ≥ 10 s, `maxCheckpointsToKeepCount` to ≥ 1; `threadCount` (clamped to ≥ 1)
is consulted only while the worker array does not exist. -/
def setParameters (s : StoreState) (pfx : String) (p : Props) : StoreState :=
  let s1 : StoreState :=
    { s with
        mMaxReadSize :=
          max (64 * 1024) (getValue p (pfx ++ "maxReadSize") s.mMaxReadSize)
        mMaxInactiveTime :=
          max 10 (getValue p (pfx ++ "maxInactiveTime") s.mMaxInactiveTime)
        mMaxCheckpointsToKeepCount :=
          max 1 (getValue p (pfx ++ "maxCheckpointsToKeepCount")
            s.mMaxCheckpointsToKeepCount) }
  if ¬ s1.mWorkersStarted then
    { s1 with
        mWorkersCount :=
          max 1 (getValue p (pfx ++ "threadCount") s1.mWorkersCount) }
  else s1

/-- C9: the constructor defaults are 2 MiB / 60 s / 16 checkpoints;
`SetParameters` clamps `maxReadSize` to ≥ 64 KiB, `maxInactiveTime` to ≥ 10,
`maxCheckpointsToKeepCount` to ≥ 1; `threadCount` (floor 1) takes effect only
while the worker pool has not been started, and while started the worker
count is frozen. -/
theorem c9_set_parameters_clamps (s : StoreState) (pfx : String) (p : Props) :
    (∀ netNow : Int, (implInit netNow).mMaxReadSize = 2097152 ∧
      (implInit netNow).mMaxInactiveTime = 60 ∧
      (implInit netNow).mMaxCheckpointsToKeepCount = 16) ∧
    65536 ≤ (setParameters s pfx p).mMaxReadSize ∧
    10 ≤ (setParameters s pfx p).mMaxInactiveTime ∧
    1 ≤ (setParameters s pfx p).mMaxCheckpointsToKeepCount ∧
    (s.mWorkersStarted = false →
      (setParameters s pfx p).mWorkersCount =
        max 1 (getValue p (pfx ++ "threadCount") s.mWorkersCount) ∧
      1 ≤ (setParameters s pfx p).mWorkersCount) ∧
    (s.mWorkersStarted = true →
      (setParameters s pfx p).mWorkersCount = s.mWorkersCount) := by
  refine ⟨fun _ => ⟨rfl, rfl, rfl⟩, ?_, ?_, ?_, ?_, ?_⟩
  · have h : (setParameters s pfx p).mMaxReadSize =
        max (64 * 1024) (getValue p (pfx ++ "maxReadSize") s.mMaxReadSize) := by
      simp only [setParameters]
      split <;> rfl
    rw [h]
    exact le_trans (by norm_num) (le_max_left _ _)
  · have h : (setParameters s pfx p).mMaxInactiveTime =
        max 10 (getValue p (pfx ++ "maxInactiveTime") s.mMaxInactiveTime) := by
      simp only [setParameters]
      split <;> rfl
    rw [h]
    exact le_max_left _ _
  · have h : (setParameters s pfx p).mMaxCheckpointsToKeepCount =
        max 1 (getValue p (pfx ++ "maxCheckpointsToKeepCount")
          s.mMaxCheckpointsToKeepCount) := by
      simp only [setParameters]
      split <;> rfl
    rw [h]
    exact le_max_left _ _
  · intro hws
    have h : (setParameters s pfx p).mWorkersCount =
        max 1 (getValue p (pfx ++ "threadCount") s.mWorkersCount) := by
      simp [setParameters, hws]
    exact ⟨h, h ▸ le_max_left _ _⟩
  · intro hws
    simp [setParameters, hws]

def c9p : Props := fun k =>
  if k = "metaDataStore.maxReadSize" then some 1000
  else if k = "metaDataStore.threadCount" then some (-5)
  else none

def c9sA : StoreState := implInit 0

def c9sB : StoreState :=
  { implInit 0 with mWorkersStarted := true, mWorkersCount := 3 }

theorem c9_set_parameters_clamps_witness :
    (setParameters c9sA "metaDataStore." c9p).mWorkersCount = 1 ∧
    (setParameters c9sB "metaDataStore." c9p).mWorkersCount = 3 ∧
    65536 ≤ (setParameters c9sA "metaDataStore." c9p).mMaxReadSize ∧
    (implInit 0).mMaxReadSize = 2097152 := by
  refine ⟨?_, ?_, ?_, ?_⟩
  · exact (((c9_set_parameters_clamps c9sA "metaDataStore." c9p).2.2.2.2.1)
      rfl).1.trans (by decide)
  · exact ((c9_set_parameters_clamps c9sB "metaDataStore." c9p).2.2.2.2.2) rfl
  · exact (c9_set_parameters_clamps c9sA "metaDataStore." c9p).2.1
  · exact ((c9_set_parameters_clamps c9sA "m." c9p).1 0).1

/-! ## MetaDataStore: the Reader (`Impl::Read`) -/

/-- Modelled from the spec: `QCUtils::SysError` (qcdio, not among the examined
sources) renders the system error text for an errno value; only that the
message is the system error for that errno matters, so it is modelled as an
injective rendering. -/
def SysError (e : Int) : String := "system error " ++ toString e

/-- Modelled from the spec: the kernel-side state of the entry's file as seen
through its descriptor.  `IOBuffer::Read(fd, maxRead)` (kfsio, not among the
examined sources) appends to the buffer at most `maxRead` bytes obtained by
POSIX `read(2)` from the descriptor — i.e. starting at the descriptor's
current file offset `fdPos`, which the kernel then advances — and returns the
byte count, or the negated `errno` when the read fails.  `openFails` models
`open(2)` returning `-1`; `nextFd` is the descriptor a successful open
yields, with the offset reset to `0`. -/
structure ReadEnv where
  fileData : List Int
  fdPos : Nat := 0
  openFails : Bool := false
  readErr : Option Int := none
  nextFd : Int := 3
deriving DecidableEq, Repr

/-- Modelled from the spec: `IOBuffer::Read` as described on `ReadEnv`. -/
def ioBufferRead (env : ReadEnv) (maxRead : Int) : Int × List Int × ReadEnv :=
  match env.readErr with
  | some err => (-err, [], env)
  | none =>
    let bytes := (env.fileData.drop env.fdPos).take maxRead.toNat
    ((bytes.length : Int), bytes, { env with fdPos := env.fdPos + bytes.length })

structure ReadResult where
  lru : List Int
  table : List (Int × Entry)
  op : ReadOp
  env : ReadEnv
deriving DecidableEq, Repr

/-- `MetaDataStore::Impl::Read` (the worker-side read), translated line by
line: re-resolve the entry (`-EFAULT` "internal error -- no such entry" on a
miss), LRU touch, release the mutex, lazily `open` when `mFd < 0` (on failure
`-EIO` "failed to open file"), then
`inReadOp.data.Read(mFd, min(theMaxRead, inReadOp.readSize))` — note the call
passes no file offset and the code performs no seek — with `-EIO` and
`SysError` on a failed read; reacquire the mutex, drop the use count, LRU
touch. -/
def storeRead (mMaxReadSize mNow : Int) (lru : List Int)
    (table : List (Int × Entry)) (op : ReadOp) (env : ReadEnv) : ReadResult :=
  match mapFind table op.startLogSeq with
  | none =>
    ⟨lru, table,
     { op with status := -EFAULT, statusMsg := "internal error -- no such entry" },
     env⟩
  | some (k, e) =>
    let (e1, lru1) := updateLru e lru mNow
    let theMaxRead := mMaxReadSize
    let e2 := if e1.mFd < 0 ∧ ¬ env.openFails then { e1 with mFd := env.nextFd } else e1
    let env1 := if e1.mFd < 0 ∧ ¬ env.openFails then { env with fdPos := 0 } else env
    let (op1, env2) :=
      if e2.mFd < 0 then
        ({ op with status := -EIO', statusMsg := "failed to open file" }, env1)
      else
        let r := ioBufferRead env1 (min theMaxRead op.readSize)
        if r.1 < 0 then
          ({ op with status := -EIO', statusMsg := SysError (-r.1) }, r.2.2)
        else
          ({ op with data := op.data ++ r.2.1 }, r.2.2)
    let e3 := { e2 with mUseCount := e2.mUseCount - 1 }
    let (e4, lru2) := updateLru e3 lru1 mNow
    ⟨lru2, replaceKey table k e4, op1, env2⟩

def c2entry : Entry := { Entry.make 5 9 "log.5" 0 with mUseCount := 1 }

def c2table : List (Int × Entry) := [(5, c2entry)]

def c2op : ReadOp :=
  { checkpointFlag := false, startLogSeq := 5, readPos := 5, readSize := 3 }

def c2env : ReadEnv := { fileData := [10, 11, 12, 13, 14, 15, 16, 17] }

/-- C2 counterexample: a freshly opened descriptor reads from offset 0, not
from `op.readPos = 5` — `Read` never consults `readPos` and performs no
seek, so the claim's "starting at file offset `op.readPos`" fails. -/
theorem c2_read_ignores_readPos_counterexample :
    (storeRead 65536 0 [] c2table c2op c2env).op.data = [10, 11, 12] ∧
    (c2env.fileData.drop c2op.readPos.toNat).take c2op.readSize.toNat
      = [15, 16, 17] ∧
    (storeRead 65536 0 [] c2table c2op c2env).op.data ≠
      (c2env.fileData.drop c2op.readPos.toNat).take c2op.readSize.toNat ∧
    (storeRead 65536 0 [] c2table c2op c2env).op.status = 0 := by decide

/-- C2 (amended): at most `min(mMaxReadSize, op.readSize)` bytes are read
from the entry's file into the op's buffer, starting at the descriptor's
current offset — 0 for a freshly opened descriptor — not at `op.readPos`,
which `Read` ignores; on read failure the status is `-EIO` with the system
error as the message. -/
theorem c2_read_amended (mMaxReadSize mNow : Int) (lru : List Int)
    (table : List (Int × Entry)) (op : ReadOp) (env : ReadEnv)
    (k : Int) (e : Entry)
    (hfind : mapFind table op.startLogSeq = some (k, e))
    (hdata : op.data = [])
    (hopen : ¬ (e.mFd < 0 ∧ env.openFails))
    (hfd : e.mFd < 0 → 0 ≤ env.nextFd) :
    (env.readErr = none →
      (storeRead mMaxReadSize mNow lru table op env).op.data =
        ((env.fileData.drop (if e.mFd < 0 then 0 else env.fdPos)).take
          (min mMaxReadSize op.readSize).toNat) ∧
      (storeRead mMaxReadSize mNow lru table op env).op.data.length ≤
        (min mMaxReadSize op.readSize).toNat ∧
      (storeRead mMaxReadSize mNow lru table op env).op.status = op.status) ∧
    (∀ err : Int, env.readErr = some err → 0 < err →
      (storeRead mMaxReadSize mNow lru table op env).op.status = -EIO' ∧
      (storeRead mMaxReadSize mNow lru table op env).op.statusMsg =
        SysError err) := by
  have hnn : ∀ n : Nat, ¬ ((n : Int) < 0) := fun n =>
    Int.not_lt.mpr (Int.natCast_nonneg n)
  constructor
  · intro herr
    by_cases hfd0 : e.mFd < 0
    · have hopen' : ¬ env.openFails := fun hc => hopen ⟨hfd0, hc⟩
      have hfd2 : ¬ env.nextFd < 0 := by have := hfd hfd0; omega
      refine ⟨?_, ?_, ?_⟩
      · simp [storeRead, hfind, updateLru, ioBufferRead, herr, hdata, hfd0,
          hopen', hfd2, hnn]
      · simp [storeRead, hfind, updateLru, ioBufferRead, herr, hdata, hfd0,
          hopen', hfd2, hnn, List.length_take]
      · simp [storeRead, hfind, updateLru, ioBufferRead, herr, hdata, hfd0,
          hopen', hfd2, hnn]
    · refine ⟨?_, ?_, ?_⟩
      · simp [storeRead, hfind, updateLru, ioBufferRead, herr, hdata, hfd0,
          hnn]
      · simp [storeRead, hfind, updateLru, ioBufferRead, herr, hdata, hfd0,
          hnn, List.length_take]
      · simp [storeRead, hfind, updateLru, ioBufferRead, herr, hdata, hfd0,
          hnn]
  · intro err herr hpos
    have hneg : ((-err : Int) < 0) := by omega
    by_cases hfd0 : e.mFd < 0
    · have hopen' : ¬ env.openFails := fun hc => hopen ⟨hfd0, hc⟩
      have hfd2 : ¬ env.nextFd < 0 := by have := hfd hfd0; omega
      constructor <;>
        simp [storeRead, hfind, updateLru, ioBufferRead, herr, hfd0, hopen',
          hfd2, hneg]
    · constructor <;>
        simp [storeRead, hfind, updateLru, ioBufferRead, herr, hfd0, hneg]

theorem c2_read_amended_witness :
    (storeRead 65536 0 [] c2table c2op c2env).op.data = [10, 11, 12] ∧
    (storeRead 65536 0 [] c2table c2op
      { c2env with readErr := some 5 }).op.status = -EIO' ∧
    (storeRead 65536 0 [] c2table c2op
      { c2env with readErr := some 5 }).op.statusMsg = SysError 5 := by
  have h := c2_read_amended 65536 0 [] c2table c2op c2env 5 c2entry rfl rfl
    (by decide) (by decide)
  have h2 := c2_read_amended 65536 0 [] c2table c2op
    { c2env with readErr := some 5 } 5 c2entry rfl rfl (by decide) (by decide)
  refine ⟨?_, ?_, ?_⟩
  · exact ((h.1 rfl).1).trans (by decide)
  · exact (h2.2 5 rfl (by decide)).1
  · exact (h2.2 5 rfl (by decide)).2

/-! ## MetaServerSM: connection state machine (`chunk/MetaServerSM.cc`) -/

/-- Modelled from the spec: `EBADCLUSTERKEY` is a KFS-specific error code from
`common/kfserrno.h` (not among the examined sources); only its identity
matters here, so its value is a stand-in from the KFS error band. -/
def EBADCLUSTERKEY : Int := 100010

/-- Modelled from the spec: `KfsToSysErrno` (`common/kfserrno.h`, not among
the examined sources) translates a status from the KFS error space to host
errno values; a negative wire status is translated by
`status = -KfsToSysErrno(-status)`.  The translation fixes the codes relevant
here (host errnos and `EBADCLUSTERKEY` map to themselves), so it is modelled
as the identity map. -/
def KfsToSysErrno (e : Int) : Int := e

/-- A `KfsOp` as the state machine observes it: sequence number, status and
message, generation stamp, `noReply`, the RPC-format flags, and — for the
hello op — `resumeStep` and the lost-chunk-directory count. -/
structure KfsOp where
  seq : Int
  status : Int := 0
  statusMsg : String := ""
  generation : Nat := 0
  noReply : Bool := false
  reqShortRpcFmtFlag : Bool := false
  shortRpcFormatFlag : Bool := false
  initialShortRpcFormatFlag : Bool := false
  resumeStep : Int := -1
  lostChunkDirs : Nat := 0
deriving DecidableEq, Repr

inductive RpcFormat
  | undef
  | short
  | long
deriving DecidableEq, Repr

/-- The `NetConnection` as the state machine observes it: socket liveness
(`Close()` clears it) and the pending input-buffer bytes. -/
structure NetConn where
  good : Bool := true
  inBufferBytes : Int := 0
deriving DecidableEq, Repr

/-- `MetaServerSM` members the embedded operations touch, plus observation
sinks for the external calls: `completed` records every op handed to
`SubmitOpResponse` (modelled from the spec: completion hands the op back to
its owner), `wireSeqs` the sequences written to the connection by `Request`,
`errorLog` the messages passed to `Error`, `helloResubmits` the hello ops
re-submitted through `SubmitOp`, `died` the `die(...)` fatal aborts, and the
disconnect notifications to lease clerk / replicator / chunk manager. -/
structure MetaServerSMState where
  mCmdSeq : Int := 1
  mSentHello : Bool := false
  mHelloOp : Option KfsOp := none
  mAuthOp : Option KfsOp := none
  mPendingOps : List KfsOp := []
  mDispatchedOps : List (Int × KfsOp) := []
  mPendingResponses : List KfsOp := []
  mNetConnection : Option NetConn := none
  mOp : Option KfsOp := none
  mRequestFlag : Bool := false
  mRpcFormat : RpcFormat := RpcFormat.undef
  mContentLength : Int := 0
  mGenerationCount : Nat := 1
  mMaxPendingOpsCount : Nat := 96
  mConnectedTime : Int := 0
  mLocationValid : Bool := true
  helloCount : Nat := 0
  helloErrorCount : Nat := 0
  helloDoneCount : Nat := 0
  helloResubmits : Nat := 0
  completed : List KfsOp := []
  wireSeqs : List Int := []
  errorLog : List String := []
  authResponseHandled : Bool := false
  leasesDropped : Bool := false
  replicationsCanceled : Bool := false
  connectionLostNotified : Bool := false
  netShutdownRequested : Bool := false
  died : Bool := false
deriving DecidableEq, Repr

/-- Modelled from the spec: `IsConnected` (`MetaServerSM.h`, not among the
examined sources) — a live socket exists. -/
def MetaServerSMState.IsConnected (s : MetaServerSMState) : Bool :=
  s.mNetConnection.any (fun c => c.good)

/-- Modelled from the spec: `IsHandshakeDone` (`MetaServerSM.h`, not among
the examined sources) — HELLO was sent and its op has been retired
(§4.5's `HandshakeDone` state). -/
def MetaServerSMState.IsHandshakeDone (s : MetaServerSMState) : Bool :=
  s.mSentHello && s.mHelloOp.isNone

/-- Modelled from the spec: `IsUp` — connected with the handshake done. -/
def MetaServerSMState.IsUp (s : MetaServerSMState) : Bool :=
  s.IsConnected && s.IsHandshakeDone

/-- `MetaServerSM::CleanupOpInFlight`: drops the in-flight op (the heap
delete is unobservable). -/
def CleanupOpInFlight (s : MetaServerSMState) : MetaServerSMState :=
  { s with mOp := none }

/-- `MetaServerSM::DetachAndDeleteOp(mAuthOp)`. -/
def DetachAndDeleteAuthOp (s : MetaServerSMState) : MetaServerSMState :=
  { s with mOp := if s.mOp = s.mAuthOp then none else s.mOp, mAuthOp := none }

/-- `MetaServerSM::DetachAndDeleteOp(mHelloOp)`. -/
def DetachAndDeleteHelloOp (s : MetaServerSMState) : MetaServerSMState :=
  { s with mOp := if s.mOp = s.mHelloOp then none else s.mOp, mHelloOp := none }

/-- `MetaServerSM::DiscardPendingResponses`: delete, do not complete. -/
def DiscardPendingResponses (s : MetaServerSMState) : MetaServerSMState :=
  { s with mPendingResponses := [] }

/-- `MetaServerSM::FailOps`: splice `mDispatchedOps` and `mPendingOps` into a
local list, clear both, and complete every op with `-EHOSTUNREACH`.  The
source re-splices `mPendingOps` while `shutdownFlag` holds in case a
completion enqueued more ops; the modelled `SubmitOpResponse` (the
`completed` sink) enqueues nothing, so the loop runs once. -/
def FailOps (s : MetaServerSMState) (shutdownFlag : Bool) : MetaServerSMState :=
  let doneOps := s.mDispatchedOps.map (fun p => p.2) ++ s.mPendingOps
  let _ := shutdownFlag
  { s with
      mDispatchedOps := []
      mPendingOps := []
      completed := s.completed ++
        doneOps.map (fun op => { op with status := -EHOSTUNREACH }) }

/-- `MetaServerSM::Error(msg)`: clean up the in-flight op, discard the auth
op and the pending responses; when a connection object exists, bump the
generation, close the socket, clear its input buffer, log `msg`, drop all
leases, cancel replications and notify the chunk manager; fail every
pending and dispatched op; reset `mSentHello` and discard the hello op.
`netRunning` is `globalNetManager().IsRunning()`. -/
def SMError (s : MetaServerSMState) (msg : String) (netRunning : Bool) :
    MetaServerSMState :=
  let s := CleanupOpInFlight s
  let s := DetachAndDeleteAuthOp s
  let s := DiscardPendingResponses s
  let s :=
    match s.mNetConnection with
    | none => s
    | some _ =>
      { s with
          mGenerationCount := s.mGenerationCount + 1
          mNetConnection := some { good := false, inBufferBytes := 0 }
          errorLog := s.errorLog ++ [msg]
          leasesDropped := true
          replicationsCanceled := true
          connectionLostNotified := true }
  let s := FailOps s (¬ netRunning)
  let s := { s with mSentHello := false }
  DetachAndDeleteHelloOp s

/-- C5: whenever `Error(msg)` runs while a connection object exists, it
closes the socket (and clears its input buffer), increments the generation
counter, discards the in-flight auth op and hello op, and completes every op
from `mPendingOps` and `mDispatchedOps` with status `-EHOSTUNREACH`, leaving
`mDispatchedOps` (and `mPendingOps`) empty. -/
theorem c5_error_fails_all_ops (s : MetaServerSMState) (msg : String)
    (netRunning : Bool) (c : NetConn) (hconn : s.mNetConnection = some c) :
    (SMError s msg netRunning).mNetConnection =
      some { good := false, inBufferBytes := 0 } ∧
    (SMError s msg netRunning).mGenerationCount = s.mGenerationCount + 1 ∧
    (SMError s msg netRunning).mAuthOp = none ∧
    (SMError s msg netRunning).mHelloOp = none ∧
    (SMError s msg netRunning).mOp = none ∧
    (SMError s msg netRunning).mDispatchedOps = [] ∧
    (SMError s msg netRunning).mPendingOps = [] ∧
    (SMError s msg netRunning).completed =
      s.completed ++
        (s.mDispatchedOps.map (fun p => p.2) ++ s.mPendingOps).map
          (fun op => { op with status := -EHOSTUNREACH }) ∧
    (SMError s msg netRunning).mSentHello = false ∧
    (SMError s msg netRunning).errorLog = s.errorLog ++ [msg] := by
  refine ⟨?_, ?_, ?_, ?_, ?_, ?_, ?_, ?_, ?_, ?_⟩ <;>
    simp [SMError, CleanupOpInFlight, DetachAndDeleteAuthOp,
      DiscardPendingResponses, FailOps, DetachAndDeleteHelloOp, hconn]

def c5op1 : KfsOp := { seq := 8 }

def c5op2 : KfsOp := { seq := 9 }

def c5s : MetaServerSMState :=
  { mNetConnection := some { good := true, inBufferBytes := 7 },
    mSentHello := true,
    mDispatchedOps := [(8, c5op1)],
    mPendingOps := [c5op2] }

theorem c5_error_fails_all_ops_witness :
    (SMError c5s "network error" true).mNetConnection =
      some { good := false, inBufferBytes := 0 } ∧
    (SMError c5s "network error" true).mGenerationCount = 2 ∧
    (SMError c5s "network error" true).mDispatchedOps = [] ∧
    (SMError c5s "network error" true).completed =
      [{ c5op1 with status := -EHOSTUNREACH },
       { c5op2 with status := -EHOSTUNREACH }] := by
  have h := c5_error_fails_all_ops c5s "network error" true
    { good := true, inBufferBytes := 7 } rfl
  exact ⟨h.1, h.2.1, h.2.2.2.2.2.1, h.2.2.2.2.2.2.2.1.trans (by decide)⟩

def lookupSeq (l : List (Int × KfsOp)) (k : Int) : Option KfsOp :=
  (l.find? (fun p => p.1 = k)).map (fun p => p.2)

def eraseSeq (l : List (Int × KfsOp)) (k : Int) : List (Int × KfsOp) :=
  l.filter (fun p => p.1 ≠ k)

def replaceSeq (l : List (Int × KfsOp)) (k : Int) (op : KfsOp) :
    List (Int × KfsOp) :=
  l.map (fun p => if p.1 = k then (k, op) else p)

/-- `MetaServerSM::Request(op)`: stamp the format flags, clear the status and
write the request to the connection's output buffer (observed through
`wireSeqs`). -/
def RequestOut (s : MetaServerSMState) (op : KfsOp) :
    MetaServerSMState × KfsOp :=
  let op :=
    { op with
        shortRpcFormatFlag := s.mRpcFormat = RpcFormat.short
        initialShortRpcFormatFlag := s.mRpcFormat = RpcFormat.short
        status := 0 }
  ({ s with wireSeqs := s.wireSeqs ++ [op.seq] }, op)

/-- `MetaServerSM::EnqueueOp`: dispatch immediately when idle, up and within
the in-flight window (fresh sequence from `nextSeq()`, insert into
`mDispatchedOps` unless `noReply`, write out, `noReply` ops complete inline);
otherwise queue on `mPendingOps` while the net manager runs and the location
is valid, else complete with `-EHOSTUNREACH`. -/
def EnqueueOp (s : MetaServerSMState) (op : KfsOp) (netRunning : Bool) :
    MetaServerSMState :=
  if s.mAuthOp.isNone ∧ s.mPendingOps.isEmpty ∧ s.IsUp ∧
      s.mDispatchedOps.length < s.mMaxPendingOpsCount then
    let ns := s.mCmdSeq
    let s1 : MetaServerSMState := { s with mCmdSeq := s.mCmdSeq + 1 }
    let op1 := { op with seq := ns }
    if ¬ op1.noReply ∧ (lookupSeq s1.mDispatchedOps ns).isSome then
      { s1 with died := true }
    else
      let (s2, op2) := RequestOut s1 op1
      if op2.noReply then { s2 with completed := s2.completed ++ [op2] }
      else { s2 with mDispatchedOps := s2.mDispatchedOps ++ [(ns, op2)] }
  else
    if netRunning ∧ s.mLocationValid then
      { s with mPendingOps := s.mPendingOps ++ [op] }
    else
      { s with completed := s.completed ++ [{ op with status := -EHOSTUNREACH }] }

/-- The while loop of `MetaServerSM::DispatchOps`: assign sequences and write
out pending ops while the window (`cnt < mMaxPendingOpsCount`) has room;
`noReply` ops are collected to complete after the loop. -/
def dispatchOpsLoop (maxCnt : Nat) :
    MetaServerSMState → Nat → List KfsOp → List KfsOp →
    MetaServerSMState × List KfsOp
  | s, _, [], doneAcc => (s, doneAcc)
  | s, cnt, op :: rest, doneAcc =>
    if maxCnt ≤ cnt then ({ s with mPendingOps := op :: rest }, doneAcc)
    else
      let ns := s.mCmdSeq
      let s1 : MetaServerSMState := { s with mCmdSeq := s.mCmdSeq + 1 }
      let op1 := { op with seq := ns }
      if op1.noReply then
        let (s2, op2) := RequestOut s1 op1
        dispatchOpsLoop maxCnt s2 (cnt + 1) rest (doneAcc ++ [op2])
      else if (lookupSeq s1.mDispatchedOps ns).isSome then
        ({ s1 with died := true, mPendingOps := rest }, doneAcc)
      else
        let (s2, op2) := RequestOut s1 op1
        dispatchOpsLoop maxCnt
          { s2 with mDispatchedOps := s2.mDispatchedOps ++ [(ns, op2)] }
          (cnt + 1) rest doneAcc

/-- `MetaServerSM::DispatchOps`. -/
def DispatchOps (s : MetaServerSMState) : MetaServerSMState :=
  if ¬ s.IsUp ∨ s.mAuthOp.isSome ∨ s.mPendingOps.isEmpty then s
  else
    let r := dispatchOpsLoop s.mMaxPendingOpsCount
      { s with mPendingOps := [] } s.mDispatchedOps.length s.mPendingOps []
    { r.1 with completed := r.1.completed ++ r.2 }

/-- The `lostChunkDirs` drain of the hello-success path: one `CorruptChunkOp`
is enqueued per lost chunk directory while the connection stays up. -/
def enqueueCorrupt (netRunning : Bool) :
    MetaServerSMState → Nat → MetaServerSMState
  | s, 0 => s
  | s, n + 1 =>
    if s.IsConnected then
      enqueueCorrupt netRunning (EnqueueOp s { seq := -1 } netRunning) n
    else s

/-- The header fields `HandleReply` extracts from a reply via `Properties`
(`Cseq`/`c`, `Status`/`s`, `Status-message`/`m`, `Content-length`/`l`,
`Resume`/`R`, `Max-pending`/`MP`), plus the raw key-presence bits the format
negotiation tests. -/
structure ReplyHeader where
  seq : Int := -1
  rawStatus : Int := -1
  statusMsg : String := ""
  contentLength : Int := -1
  resume : Int := -1
  maxPending : Int := 96
  hasCseqKey : Bool := true
  hasCKey : Bool := false
deriving DecidableEq, Repr

/-- The results of the op-specific calls `HandleReply` delegates to
(`ParseResponse`, `ParseResponseContent`) and the bytes buffered on the
connection at the content stage — all external to the routing logic. -/
structure ReplyEnv where
  parseOk : Bool := true
  contentParseOk : Bool := true
  bufferedBytes : Int := 0
deriving DecidableEq, Repr

/-- The tail of `HandleReply` from `if (0 < mContentLength)`: wait for the
full body (remembering the op in `mOp`), parse it (`Error` on failure); then
a hello op re-submits the next handshake step
(`resumeStep 0 → 1`, `mSentHello = false`, fresh sequence) while a dispatched
op is erased from `mDispatchedOps` and handed to `SubmitOpResponse`. -/
def handleReplyContentTail (s : MetaServerSMState) (op : KfsOp)
    (isHello : Bool) (env : ReplyEnv) (netRunning : Bool) :
    MetaServerSMState × Bool :=
  let rem := s.mContentLength - env.bufferedBytes
  if 0 < s.mContentLength ∧ 0 < rem then
    ({ s with mRequestFlag := false, mOp := some op }, false)
  else if 0 < s.mContentLength ∧ ¬ env.contentParseOk then
    (SMError { s with mContentLength := 0 } "response body parse error"
      netRunning, false)
  else
    let s := if 0 < s.mContentLength then { s with mContentLength := 0 } else s
    if isHello then
      let op := if op.resumeStep = 0 then { op with resumeStep := 1 } else op
      let ns := s.mCmdSeq
      ({ s with
           mSentHello := false
           mCmdSeq := s.mCmdSeq + 1
           mHelloOp := some { op with seq := ns }
           helloResubmits := s.helloResubmits + 1 }, true)
    else
      ({ s with
           mDispatchedOps := eraseSeq s.mDispatchedOps op.seq
           completed := s.completed ++ [op] }, true)

/-- The hello branch of `HandleReply` (`if (mHelloOp)`): the
`-EBADCLUSTERKEY` check comes first and requests event-loop shutdown; then
the `errorFlag` disjunction guards `Error("handshake error")`; `status == 0`
parses the payload (`Max-pending` is the one field the routing observes) and
either finishes the handshake (`resumeStep != 0`: set `mConnectedTime`,
retire the hello op, synthesize a `CorruptChunkOp` per lost chunk dir,
dispatch pending ops) or falls to the content tail (`resumeStep == 0`); a
non-zero status (`-EAGAIN`) re-submits a full hello. -/
def handleReplyHello (s : MetaServerSMState) (hop : KfsOp) (h : ReplyHeader)
    (env : ReplyEnv) (status : Int) (now : Int) (netRunning : Bool) :
    MetaServerSMState × Bool :=
  if status = -EBADCLUSTERKEY then
    ({ s with netShutdownRequested := true }, false)
  else
    let s := { s with helloCount := s.helloCount + 1 }
    let resumeStep : Int := if status = 0 then h.resume else -1
    if h.seq ≠ hop.seq ∨
        (status ≠ 0 ∧ 0 < s.mContentLength) ∨
        (hop.resumeStep ≠ 0 ∧ 0 < s.mContentLength) ∨
        (hop.resumeStep < 0 ∧ status ≠ 0) ∨
        (0 ≤ hop.resumeStep ∧ status ≠ 0 ∧ status ≠ -EAGAIN) ∨
        (0 ≤ hop.resumeStep ∧ status = 0 ∧ resumeStep ≠ hop.resumeStep) then
      (SMError { s with helloErrorCount := s.helloErrorCount + 1 }
        "handshake error" netRunning, false)
    else if status = 0 then
      let s := { s with mMaxPendingOpsCount := (max 1 h.maxPending).toNat }
      if hop.resumeStep ≠ 0 then
        let s :=
          { s with
              mConnectedTime := now
              mHelloOp := none
              mOp := if s.mOp = some hop then none else s.mOp }
        if s.IsUp then
          let s := { s with helloDoneCount := s.helloDoneCount + 1 }
          let s := enqueueCorrupt netRunning s hop.lostChunkDirs
          (DispatchOps s, true)
        else (s, true)
      else
        handleReplyContentTail s hop true env netRunning
    else
      let ns := s.mCmdSeq
      ({ s with
           mHelloOp := some { hop with resumeStep := -1, seq := ns }
           mSentHello := false
           mCmdSeq := s.mCmdSeq + 1
           helloResubmits := s.helloResubmits + 1 }, true)

/-- `MetaServerSM::HandleReply` on a freshly parsed reply header (the
`mOp == 0` entry; the io-wait re-entry runs the same content tail).  In
order: format negotiation, status translation
(`status = -KfsToSysErrno(-status)` when negative), `mContentLength` from the
header; then the auth branch (sequence mismatch is an error, otherwise the
response is handed to `HandleAuthResponse`), the hello branch, and finally
the dispatched-op lookup by sequence — a miss is
`Error("protocol invalid sequence")`, a hit records status and message,
parses, and runs the content tail. -/
def HandleReplyParsed (s : MetaServerSMState) (h : ReplyHeader)
    (env : ReplyEnv) (now : Int) (netRunning : Bool) :
    MetaServerSMState × Bool :=
  let s :=
    if s.mRpcFormat = RpcFormat.undef ∧
        (s.mHelloOp.any (fun hop => hop.reqShortRpcFmtFlag) ∨
         s.mAuthOp.any (fun a => a.reqShortRpcFmtFlag)) ∧
        ¬ h.hasCseqKey ∧ h.hasCKey then
      match s.mAuthOp with
      | some a =>
        { s with
            mRpcFormat := RpcFormat.short
            mAuthOp := some { a with initialShortRpcFormatFlag := true,
                                     shortRpcFormatFlag := true } }
      | none =>
        match s.mHelloOp with
        | some hop =>
          { s with
              mRpcFormat := RpcFormat.short
              mHelloOp := some { hop with initialShortRpcFormatFlag := true,
                                          shortRpcFormatFlag := true } }
        | none => { s with mRpcFormat := RpcFormat.short }
    else s
  let status :=
    if h.rawStatus < 0 then -(KfsToSysErrno (-h.rawStatus)) else h.rawStatus
  let statusMsg := if h.rawStatus < 0 then h.statusMsg else ""
  let s := { s with mContentLength := h.contentLength }
  match s.mAuthOp with
  | some a =>
    if ¬ s.IsHandshakeDone ∨ h.seq = a.seq then
      if h.seq ≠ a.seq then
        (SMError s "authentication protocol error" netRunning, false)
      else
        let a' := { a with status := status,
                           statusMsg := if status < 0 then statusMsg
                                        else a.statusMsg }
        let s := { s with mAuthOp := some a' }
        if ¬ env.parseOk ∧ 0 ≤ status then
          (SMError s "invalid meta server response" netRunning, false)
        else
          ({ s with authResponseHandled := true }, false)
    else
      match s.mHelloOp with
      | some hop => handleReplyHello s hop h env status now netRunning
      | none =>
        match lookupSeq s.mDispatchedOps h.seq with
        | none => (SMError s "protocol invalid sequence" netRunning, false)
        | some op =>
          let op := { op with status := status,
                              statusMsg := if status < 0 ∧ op.statusMsg = ""
                                           then statusMsg else op.statusMsg }
          let s := { s with mDispatchedOps := replaceSeq s.mDispatchedOps h.seq op }
          if ¬ env.parseOk ∧ 0 ≤ status then
            (SMError s "meta response parse error" netRunning, false)
          else
            handleReplyContentTail s op false env netRunning
  | none =>
    match s.mHelloOp with
    | some hop => handleReplyHello s hop h env status now netRunning
    | none =>
      match lookupSeq s.mDispatchedOps h.seq with
      | none => (SMError s "protocol invalid sequence" netRunning, false)
      | some op =>
        let op := { op with status := status,
                            statusMsg := if status < 0 ∧ op.statusMsg = ""
                                         then statusMsg else op.statusMsg }
        let s := { s with mDispatchedOps := replaceSeq s.mDispatchedOps h.seq op }
        if ¬ env.parseOk ∧ 0 ≤ status then
          (SMError s "meta response parse error" netRunning, false)
        else
          handleReplyContentTail s op false env netRunning

/-- C6: a reply whose sequence matches no op in `mDispatchedOps` — and that
is not claimed by an in-flight auth or hello op — makes the state machine
call `Error("protocol invalid sequence")`, which closes the connection; the
reply is never silently dropped (the handler reports failure and records the
protocol error). -/
theorem c6_unmatched_reply_protocol_error (s : MetaServerSMState)
    (h : ReplyHeader) (env : ReplyEnv) (now : Int) (netRunning : Bool)
    (c : NetConn)
    (hhello : s.mHelloOp = none)
    (hauth : s.mAuthOp = none)
    (hmiss : lookupSeq s.mDispatchedOps h.seq = none)
    (hconn : s.mNetConnection = some c) :
    HandleReplyParsed s h env now netRunning =
      (SMError { s with mContentLength := h.contentLength }
        "protocol invalid sequence" netRunning, false) ∧
    (HandleReplyParsed s h env now netRunning).1.mNetConnection =
      some { good := false, inBufferBytes := 0 } ∧
    (HandleReplyParsed s h env now netRunning).1.errorLog =
      s.errorLog ++ ["protocol invalid sequence"] := by
  have hmain : HandleReplyParsed s h env now netRunning =
      (SMError { s with mContentLength := h.contentLength }
        "protocol invalid sequence" netRunning, false) := by
    simp [HandleReplyParsed, hhello, hauth, hmiss]
  refine ⟨hmain, ?_, ?_⟩ <;>
    rw [hmain] <;>
    simp [SMError, CleanupOpInFlight, DetachAndDeleteAuthOp,
      DiscardPendingResponses, FailOps, DetachAndDeleteHelloOp, hconn]

def c6s : MetaServerSMState :=
  { mNetConnection := some { good := true, inBufferBytes := 0 },
    mSentHello := true,
    mDispatchedOps := [(8, { seq := 8 })] }

def c6h : ReplyHeader := { seq := 99, rawStatus := 0 }

theorem c6_unmatched_reply_protocol_error_witness :
    (HandleReplyParsed c6s c6h {} 0 true).2 = false ∧
    (HandleReplyParsed c6s c6h {} 0 true).1.mNetConnection =
      some { good := false, inBufferBytes := 0 } ∧
    (HandleReplyParsed c6s c6h {} 0 true).1.errorLog =
      ["protocol invalid sequence"] := by
  have h := c6_unmatched_reply_protocol_error c6s c6h {} 0 true
    { good := true, inBufferBytes := 0 } rfl rfl (by decide) rfl
  exact ⟨by rw [h.1], h.2.1, h.2.2⟩

/-- C7: a HELLO response whose status, after the negative-status translation
`status = -KfsToSysErrno(-status)`, equals `-EBADCLUSTERKEY` makes the state
machine request event-loop shutdown and return `false` — with no handshake
retry and no reconnect: the hello op is not re-submitted, `Error` is not
invoked, the socket is left as it was, no op completes, and the sequence
and generation counters are untouched. -/
theorem c7_hello_badclusterkey_shutdown (s : MetaServerSMState)
    (h : ReplyHeader) (env : ReplyEnv) (now : Int) (netRunning : Bool)
    (hop : KfsOp)
    (hhello : s.mHelloOp = some hop)
    (hauth : s.mAuthOp = none)
    (hraw : h.rawStatus < 0)
    (hkey : -(KfsToSysErrno (-h.rawStatus)) = -EBADCLUSTERKEY) :
    (HandleReplyParsed s h env now netRunning).2 = false ∧
    (HandleReplyParsed s h env now netRunning).1.netShutdownRequested = true ∧
    (HandleReplyParsed s h env now netRunning).1.errorLog = s.errorLog ∧
    (HandleReplyParsed s h env now netRunning).1.mNetConnection =
      s.mNetConnection ∧
    (HandleReplyParsed s h env now netRunning).1.helloResubmits =
      s.helloResubmits ∧
    (HandleReplyParsed s h env now netRunning).1.completed = s.completed ∧
    (HandleReplyParsed s h env now netRunning).1.mCmdSeq = s.mCmdSeq ∧
    (HandleReplyParsed s h env now netRunning).1.mGenerationCount =
      s.mGenerationCount ∧
    (HandleReplyParsed s h env now netRunning).1.mDispatchedOps =
      s.mDispatchedOps ∧
    (HandleReplyParsed s h env now netRunning).1.mSentHello = s.mSentHello := by
  by_cases hneg : s.mRpcFormat = RpcFormat.undef ∧
      hop.reqShortRpcFmtFlag = true ∧ h.hasCseqKey = false ∧ h.hasCKey = true
  · refine ⟨?_, ?_, ?_, ?_, ?_, ?_, ?_, ?_, ?_, ?_⟩ <;>
      simp [HandleReplyParsed, handleReplyHello, hauth, hhello, hneg, hraw,
        hkey]
  · refine ⟨?_, ?_, ?_, ?_, ?_, ?_, ?_, ?_, ?_, ?_⟩ <;>
      simp [HandleReplyParsed, handleReplyHello, hauth, hhello, hneg, hraw,
        hkey]

def c7s : MetaServerSMState :=
  { mNetConnection := some { good := true, inBufferBytes := 0 },
    mSentHello := true,
    mHelloOp := some { seq := 4, resumeStep := 0 } }

def c7h : ReplyHeader := { seq := 4, rawStatus := -EBADCLUSTERKEY }

theorem c7_hello_badclusterkey_shutdown_witness :
    (HandleReplyParsed c7s c7h {} 0 true).2 = false ∧
    (HandleReplyParsed c7s c7h {} 0 true).1.netShutdownRequested = true ∧
    (HandleReplyParsed c7s c7h {} 0 true).1.errorLog = [] ∧
    (HandleReplyParsed c7s c7h {} 0 true).1.helloResubmits = 0 ∧
    (HandleReplyParsed c7s c7h {} 0 true).1.mNetConnection =
      some { good := true, inBufferBytes := 0 } := by
  have h := c7_hello_badclusterkey_shutdown c7s c7h {} 0 true
    { seq := 4, resumeStep := 0 } rfl rfl (by decide) (by decide)
  exact ⟨h.1, h.2.1, h.2.2.1, h.2.2.2.2.1, h.2.2.2.1⟩
